import Mathlib

/-!
Shallow embedding of the analytics derivation engine of the
`graph-crime-detection` pipeline (`src/pipelines/data_generation_dlt.py`):
co-presence edges, entity/case overlap, suspect rankings, handoff
candidates and cell device counts, modelled as pure functions on lists of
rows.  Timestamps are seconds since the epoch (`Int`), fractional scores
are rationals (`ℚ`), and dataframe group-by / join / window operations are
modelled with explicit list combinators.
-/

namespace CrimeGraph

/-- A cleaned location event row (`location_events_silver`).
`time_bucket` is the bucket id string, `time_bucket_ts` its timestamp in
epoch seconds (the result of `to_timestamp(time_bucket)`), and
`event_timestamp` the raw event timestamp in epoch seconds. -/
structure LocationEvent where
  entity_id : String
  h3_cell : String
  time_bucket : String
  time_bucket_ts : Int
  event_timestamp : Int
  city : String
  state : String
deriving DecidableEq, Repr

/-- The distinct group keys of a list under a key function, in first-seen
order: the model of a dataframe `groupBy`. -/
def groupKeys {α κ : Type} [DecidableEq κ] (key : α → κ) (l : List α) : List κ :=
  (l.map key).dedup

theorem mem_groupKeys {α κ : Type} [DecidableEq κ] {key : α → κ} {l : List α} {k : κ} :
    k ∈ groupKeys key l ↔ ∃ a ∈ l, key a = k := by
  simp [groupKeys, List.mem_dedup]

theorem nodup_groupKeys {α κ : Type} [DecidableEq κ] (key : α → κ) (l : List α) :
    (groupKeys key l).Nodup :=
  List.nodup_dedup _

/-- One output row of `co_presence_edges`. -/
structure CoPresenceEdge where
  entity_id_1 : String
  entity_id_2 : String
  h3_cell : String
  city : String
  state : String
  co_occurrence_count : Nat
  time_buckets : List String
  weight : ℚ
  edge_id : String
deriving DecidableEq, Repr

/-- The self-join of events on `(h3_cell, time_bucket)` with the
asymmetric condition `e1.entity_id < e2.entity_id` (the lexicographic
string order, phrased on the character lists: `a < b ↔ a.data < b.data` by
`String.lt_iff_toList_lt`). -/
def copresencePairs (events : List LocationEvent) : List (LocationEvent × LocationEvent) :=
  events.flatMap fun e1 =>
    (events.filter fun e2 =>
      e1.h3_cell = e2.h3_cell ∧ e1.time_bucket = e2.time_bucket ∧
        e1.entity_id.data < e2.entity_id.data).map fun e2 => (e1, e2)

/-- The group-by key of the co-presence aggregation:
`(entity_id_1, entity_id_2, h3_cell, city, state)` (city/state from `e1`). -/
def copresenceKey (p : LocationEvent × LocationEvent) :
    String × String × String × String × String :=
  (p.1.entity_id, p.2.entity_id, p.1.h3_cell, p.1.city, p.1.state)

/-- The rows of the self-join falling in one co-presence group. -/
def copresenceGroup (events : List LocationEvent)
    (k : String × String × String × String × String) :
    List (LocationEvent × LocationEvent) :=
  (copresencePairs events).filter fun p => copresenceKey p = k

/-- The aggregated edge of one co-presence group: count of co-occurring
rows, distinct time buckets, `weight = min(1.0, count / 5.0)` and the
deterministic edge id. -/
def coEdgeRow (events : List LocationEvent)
    (k : String × String × String × String × String) : CoPresenceEdge :=
  { entity_id_1 := k.1
    entity_id_2 := k.2.1
    h3_cell := k.2.2.1
    city := k.2.2.2.1
    state := k.2.2.2.2
    co_occurrence_count := (copresenceGroup events k).length
    time_buckets := ((copresenceGroup events k).map fun p => p.1.time_bucket).dedup
    weight := min 1 (((copresenceGroup events k).length : ℚ) / 5)
    edge_id := "COP_" ++ k.1 ++ "_" ++ k.2.1 }

/-- `co_presence_edges`: group the self-joined pairs by
`(entity_id_1, entity_id_2, h3_cell, city, state)` and aggregate each
group. -/
def co_presence_edges (events : List LocationEvent) : List CoPresenceEdge :=
  (groupKeys copresenceKey (copresencePairs events)).map (coEdgeRow events)

/-- A cleaned case row (`cases_silver`), restricted to the columns the
overlap resolver and ranking engine read. -/
structure CaseRow where
  case_id : String
  case_type : String
  city : String
  state : String
  h3_cell : String
  incident_time_bucket : String
  incident_start_ts : Int
  incident_end_ts : Int
deriving DecidableEq, Repr

/-- One output row of `entity_case_overlap`. -/
structure OverlapRow where
  entity_id : String
  case_id : String
  case_type : String
  city : String
  state : String
  h3_cell : String
  time_bucket : String
  event_timestamp : Int
  overlap_score : ℚ
  in_exact_window : Bool
deriving DecidableEq, Repr

/-- The overlap row built from one matching (event, case) pair:
`in_exact_window` holds when the event timestamp lies in
`[incident_start_ts, incident_end_ts]`. -/
def mkOverlapRow (e : LocationEvent) (c : CaseRow) : OverlapRow :=
  { entity_id := e.entity_id
    case_id := c.case_id
    case_type := c.case_type
    city := c.city
    state := c.state
    h3_cell := e.h3_cell
    time_bucket := e.time_bucket
    event_timestamp := e.event_timestamp
    overlap_score := 1
    in_exact_window :=
      decide (c.incident_start_ts ≤ e.event_timestamp ∧
        e.event_timestamp ≤ c.incident_end_ts) }

/-- `entity_case_overlap`: inner join of events to cases on
`h3_cell = h3_cell` and `time_bucket = incident_time_bucket`; one row per
matching pair, no filtering on the exact incident window. -/
def entity_case_overlap (events : List LocationEvent) (cases : List CaseRow) :
    List OverlapRow :=
  events.flatMap fun e =>
    (cases.filter fun c =>
      e.h3_cell = c.h3_cell ∧ e.time_bucket = c.incident_time_bucket).map
      fun c => mkOverlapRow e c

/-- A device-level social edge row (`social_edges_silver`). -/
structure SocialEdge where
  entity_id_1 : String
  entity_id_2 : String
  weight : ℚ
deriving DecidableEq, Repr

/-- One output row of `suspect_rankings`. -/
structure SuspectRanking where
  entity_id : String
  unique_cases : Nat
  states_count : Nat
  total_copresence_weight : ℚ
  total_social_weight : ℚ
  recurrence_score : ℚ
  cross_jurisdiction_score : ℚ
  network_score : ℚ
  total_score : ℚ
  rank : Nat
deriving DecidableEq, Repr

/-- Spark `dense_rank` over `ORDER BY score DESC`: one plus the number of
distinct score values strictly greater than the row's score. -/
def denseRank (scores : List ℚ) (s : ℚ) : Nat :=
  (scores.toFinset.filter fun t => s < t).card + 1

/-- The summed co-presence weight of one entity: the union of the
`entity_id_1` and `entity_id_2` group-sums, re-summed per entity (rows
missing from the left join contribute the `fillna` value 0). -/
def totalCopresenceWeight (cop : List CoPresenceEdge) (eid : String) : ℚ :=
  ((cop.filter fun c => c.entity_id_1 = eid).map fun c => c.weight).sum +
    ((cop.filter fun c => c.entity_id_2 = eid).map fun c => c.weight).sum

/-- The summed social-edge weight of one entity, both directions. -/
def totalSocialWeight (social : List SocialEdge) (eid : String) : ℚ :=
  ((social.filter fun s => s.entity_id_1 = eid).map fun s => s.weight).sum +
    ((social.filter fun s => s.entity_id_2 = eid).map fun s => s.weight).sum

/-- The `"burglary"`-typed overlap rows of one entity. -/
def burgRows (overlap : List OverlapRow) (eid : String) : List OverlapRow :=
  (overlap.filter fun r => r.case_type = "burglary").filter fun r =>
    r.entity_id = eid

/-- `countDistinct(case_id)` over an entity's burglary overlap rows. -/
def uniqueCasesOf (overlap : List OverlapRow) (eid : String) : Nat :=
  (((burgRows overlap eid).map fun r => r.case_id).dedup).length

/-- `countDistinct(state)` over an entity's burglary overlap rows. -/
def statesCountOf (overlap : List OverlapRow) (eid : String) : Nat :=
  (((burgRows overlap eid).map fun r => r.state).dedup).length

/-- The pre-rank ranking row of one entity: distinct-case and
distinct-state counts over its `"burglary"` overlap rows, summed weights,
and the three sub-scores (`rank` still 0). -/
def rankingRow (overlap : List OverlapRow) (cop : List CoPresenceEdge)
    (social : List SocialEdge) (eid : String) : SuspectRanking :=
  { entity_id := eid
    unique_cases := uniqueCasesOf overlap eid
    states_count := statesCountOf overlap eid
    total_copresence_weight := totalCopresenceWeight cop eid
    total_social_weight := totalSocialWeight social eid
    recurrence_score := (uniqueCasesOf overlap eid : ℚ) * (2 / 5)
    cross_jurisdiction_score := if 1 < statesCountOf overlap eid then 7 / 20 else 0
    network_score := min (1 / 4) (totalCopresenceWeight cop eid * (1 / 10) +
      totalSocialWeight social eid * (3 / 20))
    total_score := (uniqueCasesOf overlap eid : ℚ) * (2 / 5) +
      (if 1 < statesCountOf overlap eid then (7 : ℚ) / 20 else 0) +
      min (1 / 4) (totalCopresenceWeight cop eid * (1 / 10) +
        totalSocialWeight social eid * (3 / 20))
    rank := 0 }

/-- The grouped ranking rows, one per entity with a burglary overlap row,
before the rank window function. -/
def rankingBase (overlap : List OverlapRow) (cop : List CoPresenceEdge)
    (social : List SocialEdge) : List SuspectRanking :=
  (groupKeys (fun r => r.entity_id)
      (overlap.filter fun r => r.case_type = "burglary")).map
    (rankingRow overlap cop social)

/-- `suspect_rankings`: per entity with at least one `"burglary"` overlap
row, count distinct cases and states, sum co-presence and social weights
(0 when absent), combine the three sub-scores, and dense-rank by
`total_score` descending. -/
def suspect_rankings (overlap : List OverlapRow) (cop : List CoPresenceEdge)
    (social : List SocialEdge) : List SuspectRanking :=
  let base := rankingBase overlap cop social
  let scores := base.map fun r => r.total_score
  base.map fun r => { r with rank := denseRank scores r.total_score }

/-- Per-(entity, cell) aggregates feeding the handoff join: the `last_seen`
table supplies `last_bucket`/`last_seen_ts` (maxima), the `first_seen`
table `first_bucket`/`first_seen_ts` (minima); both group by the same
`(entity_id, h3_cell)` key, so one record carries both. -/
structure EntityCellStats where
  entity_id : String
  h3_cell : String
  last_bucket : String
  last_seen_ts : Int
  first_bucket : String
  first_seen_ts : Int
deriving DecidableEq, Repr

/-- The events of one entity in one cell. -/
def entityCellGroup (events : List LocationEvent) (k : String × String) :
    List LocationEvent :=
  events.filter fun e => (e.entity_id, e.h3_cell) = k

/-- The default bucket label used when a group is empty (never the case
for keys produced by the group-by). -/
def defaultBucket : String := ""

/-- The per-(entity, cell) aggregate record. -/
def entityCellRow (events : List LocationEvent) (k : String × String) :
    EntityCellStats :=
  { entity_id := k.1
    h3_cell := k.2
    last_bucket := (((entityCellGroup events k).map fun e => e.time_bucket).maximum).unbot' defaultBucket
    last_seen_ts := (((entityCellGroup events k).map fun e => e.time_bucket_ts).maximum).unbot' 0
    first_bucket := (((entityCellGroup events k).map fun e => e.time_bucket).minimum).untop' defaultBucket
    first_seen_ts := (((entityCellGroup events k).map fun e => e.time_bucket_ts).minimum).untop' 0 }

/-- Group events by `(entity_id, h3_cell)` and aggregate the max/min of
`time_bucket` and `time_bucket_ts`. -/
def entityCellStats (events : List LocationEvent) : List EntityCellStats :=
  (groupKeys (fun e => (e.entity_id, e.h3_cell)) events).map (entityCellRow events)

/-- `time_diff_minutes` of a candidate `(old, new)` pair:
`(unix_timestamp(new.first_seen_ts) - unix_timestamp(old.last_seen_ts)) / 60`. -/
def timeDiffMinutes (o n : EntityCellStats) : ℚ :=
  ((n.first_seen_ts - o.last_seen_ts : Int) : ℚ) / 60

/-- One row of the filtered `handoffs` join, before partner enrichment. -/
structure HandoffPair where
  old_entity_id : String
  new_entity_id : String
  h3_cell : String
  old_last_bucket : String
  new_first_bucket : String
  time_diff_minutes : ℚ
deriving DecidableEq, Repr

/-- The joined row of one surviving `(old, new)` pair. -/
def mkHandoffPair (o n : EntityCellStats) : HandoffPair :=
  { old_entity_id := o.entity_id
    new_entity_id := n.entity_id
    h3_cell := o.h3_cell
    old_last_bucket := o.last_bucket
    new_first_bucket := n.first_bucket
    time_diff_minutes := timeDiffMinutes o n }

/-- The `handoffs` join: pairs of per-(entity, cell) records sharing an
`h3_cell` with distinct entities, keeping only `0 < time_diff_minutes ≤ 30`. -/
def handoffPairs (events : List LocationEvent) : List HandoffPair :=
  (entityCellStats events).flatMap fun o =>
    ((entityCellStats events).filter fun n =>
      o.h3_cell = n.h3_cell ∧ o.entity_id ≠ n.entity_id ∧
        0 < timeDiffMinutes o n ∧ timeDiffMinutes o n ≤ 30).map
      (mkHandoffPair o)

/-- The symmetrised partner rows derived from co-presence edges: each edge
contributes `(entity_id_1, entity_id_2, weight)` and
`(entity_id_2, entity_id_1, weight)` (the union of both projections). -/
def partnersRows (cop : List CoPresenceEdge) : List (String × String × ℚ) :=
  (cop.map fun c => (c.entity_id_1, c.entity_id_2, c.weight)) ++
    (cop.map fun c => (c.entity_id_2, c.entity_id_1, c.weight))

/-- `shared_partner_count` as the code computes it: the left joins on the
old and new partner tables followed by `count(np.partner_id)` count, for
each partner row of `old`, every matching partner row of `new` — i.e. the
number of (old-edge-row, new-edge-row) pairs agreeing on the partner. -/
def sharedPartnerCount (cop : List CoPresenceEdge) (oldId newId : String) : Nat :=
  (((partnersRows cop).filter fun op => op.1 = oldId).map fun op =>
    ((partnersRows cop).filter fun np => np.1 = newId ∧ np.2.1 = op.2.1).length).sum

/-- The distinct partners of an entity under the symmetric co-presence
relation. -/
def partnersOf (cop : List CoPresenceEdge) (eid : String) : List String :=
  (((partnersRows cop).filter fun p => p.1 = eid).map fun p => p.2.1).dedup

/-- Modelled from the spec's words (Step 4 of the handoff engine), for
comparison with `sharedPartnerCount`: the number of partners common to
old's partner set and new's partner set, each counted once. -/
def sharedPartnerCountSpec (cop : List CoPresenceEdge) (oldId newId : String) : Nat :=
  ((partnersOf cop oldId).filter fun p => p ∈ partnersOf cop newId).length

/-- One output row of `handoff_candidates`. -/
structure HandoffCandidate where
  old_entity_id : String
  new_entity_id : String
  h3_cell : String
  old_last_bucket : String
  new_first_bucket : String
  time_diff_minutes : ℚ
  shared_partner_count : Nat
  spatial_score : ℚ
  temporal_score : ℚ
  partner_score : ℚ
  handoff_score : ℚ
  rank : Nat
deriving DecidableEq, Repr

/-- `temporal_score`: `0.3` for a gap of at most 15 minutes, `0.2` for at
most 30, otherwise `0.1`. -/
def temporalScore (h : HandoffPair) : ℚ :=
  if h.time_diff_minutes ≤ 15 then 3 / 10
  else if h.time_diff_minutes ≤ 30 then 1 / 5
  else 1 / 10

/-- `partner_score`: `0.2` when the candidate has a shared partner row. -/
def partnerScore (cop : List CoPresenceEdge) (h : HandoffPair) : ℚ :=
  if 0 < sharedPartnerCount cop h.old_entity_id h.new_entity_id then 1 / 5 else 0

/-- The scored candidate built from one filtered handoff pair:
`spatial_score` is the constant `0.5` and `handoff_score` the sum of the
three component scores. -/
def handoffScoredRow (cop : List CoPresenceEdge) (h : HandoffPair) : HandoffCandidate :=
  { old_entity_id := h.old_entity_id
    new_entity_id := h.new_entity_id
    h3_cell := h.h3_cell
    old_last_bucket := h.old_last_bucket
    new_first_bucket := h.new_first_bucket
    time_diff_minutes := h.time_diff_minutes
    shared_partner_count := sharedPartnerCount cop h.old_entity_id h.new_entity_id
    spatial_score := 1 / 2
    temporal_score := temporalScore h
    partner_score := partnerScore cop h
    handoff_score := 1 / 2 + temporalScore h + partnerScore cop h
    rank := 0 }

/-- `handoff_candidates`: enrich each filtered handoff pair with the shared
partner count, score it, and dense-rank by `handoff_score` descending. -/
def handoff_candidates (events : List LocationEvent) (cop : List CoPresenceEdge) :
    List HandoffCandidate :=
  let scored := (handoffPairs events).map (handoffScoredRow cop)
  let scores := scored.map fun r => r.handoff_score
  scored.map fun r => { r with rank := denseRank scores r.handoff_score }

/-- One output row of `cell_device_counts`. -/
structure CellDeviceCount where
  h3_cell : String
  time_bucket : String
  city : String
  state : String
  device_count : Nat
  is_high_activity : Bool
  activity_category : String
deriving DecidableEq, Repr

/-- The group-by key of `cell_device_counts`. -/
def cellKey (e : LocationEvent) : String × String × String × String :=
  (e.h3_cell, e.time_bucket, e.city, e.state)

/-- `countDistinct(entity_id)` over the events of one cell group. -/
def deviceCountOf (events : List LocationEvent)
    (k : String × String × String × String) : Nat :=
  (((events.filter fun e => cellKey e = k).map fun e => e.entity_id).dedup).length

/-- The activity category of a device count, by the 40/20/10 thresholds. -/
def activityCategory (dc : Nat) : String :=
  if 40 ≤ dc then "very_high"
  else if 20 ≤ dc then "high"
  else if 10 ≤ dc then "medium"
  else "low"

/-- The aggregate row of one cell/bucket group. -/
def cellRow (events : List LocationEvent)
    (k : String × String × String × String) : CellDeviceCount :=
  { h3_cell := k.1
    time_bucket := k.2.1
    city := k.2.2.1
    state := k.2.2.2
    device_count := deviceCountOf events k
    is_high_activity := decide (20 ≤ deviceCountOf events k)
    activity_category := activityCategory (deviceCountOf events k) }

/-- `cell_device_counts`: group events by
`(h3_cell, time_bucket, city, state)`, count distinct entities, and bucket
the count into activity categories at the 40/20/10 thresholds. -/
def cell_device_counts (events : List LocationEvent) : List CellDeviceCount :=
  (groupKeys cellKey events).map (cellRow events)

/-! Concrete test inputs. -/

/-- A location event with the given entity, cell, bucket and bucket
timestamp; the event timestamp equals the bucket timestamp, city `"X"`,
state `"S"`. -/
def mkEv (eid cell bucket : String) (ts : Int) : LocationEvent :=
  { entity_id := eid
    h3_cell := cell
    time_bucket := bucket
    time_bucket_ts := ts
    event_timestamp := ts
    city := "X"
    state := "S" }

/-- Entities `A` and `B` co-present in two distinct cells (`c1` and `c2`)
during the same bucket. -/
def exPairEvents : List LocationEvent :=
  [mkEv "A" "c1" "b1" 0, mkEv "B" "c1" "b1" 0,
   mkEv "A" "c2" "b1" 0, mkEv "B" "c2" "b1" 0]

/-- A handoff scenario: `O` last seen in cell `c0` at bucket `b1`, `N`
first seen in `c0` one bucket (900 s) later; `O` co-present with `P` in
two cells (`c1`, `c2`) and `N` co-present with `P` in one (`c3`). -/
def exHandoffEvents : List LocationEvent :=
  [mkEv "O" "c0" "b1" 0, mkEv "N" "c0" "b2" 900,
   mkEv "O" "c1" "b1" 0, mkEv "P" "c1" "b1" 0,
   mkEv "O" "c2" "b1" 0, mkEv "P" "c2" "b1" 0,
   mkEv "N" "c3" "b1" 0, mkEv "P" "c3" "b1" 0]

/-- A burglary overlap row for the given entity, case and state. -/
def mkOv (eid cid st : String) : OverlapRow :=
  { entity_id := eid
    case_id := cid
    case_type := "burglary"
    city := "X"
    state := st
    h3_cell := "c"
    time_bucket := "b"
    event_timestamp := 0
    overlap_score := 1
    in_exact_window := true }

/-- Entity `E` linked to three distinct burglary cases across two states,
entity `F` to one case in one state. -/
def exOverlapRows : List OverlapRow :=
  [mkOv "E" "K1" "TX", mkOv "E" "K2" "TX", mkOv "E" "K3" "AZ",
   mkOv "F" "K1" "TX"]

/-! Evaluations of the engines on the concrete inputs. -/

theorem exPairs_eval : copresencePairs exHandoffEvents =
    [(mkEv "O" "c1" "b1" 0, mkEv "P" "c1" "b1" 0),
     (mkEv "O" "c2" "b1" 0, mkEv "P" "c2" "b1" 0),
     (mkEv "N" "c3" "b1" 0, mkEv "P" "c3" "b1" 0)] := by decide

theorem exCop_eval : co_presence_edges exHandoffEvents =
    [{ entity_id_1 := "O", entity_id_2 := "P", h3_cell := "c1", city := "X", state := "S",
       co_occurrence_count := 1, time_buckets := ["b1"], weight := 1/5, edge_id := "COP_O_P" },
     { entity_id_1 := "O", entity_id_2 := "P", h3_cell := "c2", city := "X", state := "S",
       co_occurrence_count := 1, time_buckets := ["b1"], weight := 1/5, edge_id := "COP_O_P" },
     { entity_id_1 := "N", entity_id_2 := "P", h3_cell := "c3", city := "X", state := "S",
       co_occurrence_count := 1, time_buckets := ["b1"], weight := 1/5, edge_id := "COP_N_P" }] := by
  simp [co_presence_edges, coEdgeRow, copresenceGroup, exPairs_eval, groupKeys,
    copresenceKey, mkEv, min_def]
  norm_num

theorem exStats_eval : entityCellStats exHandoffEvents =
    [{ entity_id := "O", h3_cell := "c0", last_bucket := "b1", last_seen_ts := 0,
       first_bucket := "b1", first_seen_ts := 0 },
     { entity_id := "N", h3_cell := "c0", last_bucket := "b2", last_seen_ts := 900,
       first_bucket := "b2", first_seen_ts := 900 },
     { entity_id := "O", h3_cell := "c1", last_bucket := "b1", last_seen_ts := 0,
       first_bucket := "b1", first_seen_ts := 0 },
     { entity_id := "P", h3_cell := "c1", last_bucket := "b1", last_seen_ts := 0,
       first_bucket := "b1", first_seen_ts := 0 },
     { entity_id := "O", h3_cell := "c2", last_bucket := "b1", last_seen_ts := 0,
       first_bucket := "b1", first_seen_ts := 0 },
     { entity_id := "P", h3_cell := "c2", last_bucket := "b1", last_seen_ts := 0,
       first_bucket := "b1", first_seen_ts := 0 },
     { entity_id := "N", h3_cell := "c3", last_bucket := "b1", last_seen_ts := 0,
       first_bucket := "b1", first_seen_ts := 0 },
     { entity_id := "P", h3_cell := "c3", last_bucket := "b1", last_seen_ts := 0,
       first_bucket := "b1", first_seen_ts := 0 }] := by
  simp [entityCellStats, entityCellRow, entityCellGroup, groupKeys, mkEv, exHandoffEvents]
  decide

theorem exHandoffPairs_eval : handoffPairs exHandoffEvents =
    [{ old_entity_id := "O", new_entity_id := "N", h3_cell := "c0",
       old_last_bucket := "b1", new_first_bucket := "b2", time_diff_minutes := 15 }] := by
  norm_num [handoffPairs, mkHandoffPair, exStats_eval, timeDiffMinutes, List.filter_cons,
    List.filter_nil, Bool.and_eq_true, decide_eq_true_eq]
  simp [mkHandoffPair, timeDiffMinutes]
  norm_num

theorem exCandidates_eval :
    handoff_candidates exHandoffEvents (co_presence_edges exHandoffEvents) =
    [{ old_entity_id := "O", new_entity_id := "N", h3_cell := "c0", old_last_bucket := "b1",
       new_first_bucket := "b2", time_diff_minutes := 15, shared_partner_count := 2,
       spatial_score := 1/2, temporal_score := 3/10, partner_score := 1/5,
       handoff_score := 1, rank := 1 }] := by
  norm_num [handoff_candidates, handoffScoredRow, temporalScore, partnerScore,
    exHandoffPairs_eval, exCop_eval, sharedPartnerCount, partnersRows, denseRank,
    List.filter_cons, Bool.and_eq_true, decide_eq_true_eq, Finset.filter_singleton]
  simp
  norm_num

theorem exPartnersOfO_eval : partnersOf (co_presence_edges exHandoffEvents) "O" = ["P"] := by
  simp [partnersOf, partnersRows, exCop_eval, List.filter_cons]

theorem exPartnersOfN_eval : partnersOf (co_presence_edges exHandoffEvents) "N" = ["P"] := by
  simp [partnersOf, partnersRows, exCop_eval, List.filter_cons]

theorem exSpecCount_eval :
    sharedPartnerCountSpec (co_presence_edges exHandoffEvents) "O" "N" = 1 := by
  simp [sharedPartnerCountSpec, exPartnersOfO_eval, exPartnersOfN_eval, List.filter_cons]

theorem exRankings_eval : suspect_rankings exOverlapRows [] [] =
    [{ entity_id := "E", unique_cases := 3, states_count := 2,
       total_copresence_weight := 0, total_social_weight := 0,
       recurrence_score := 6/5, cross_jurisdiction_score := 7/20,
       network_score := 0, total_score := 31/20, rank := 1 },
     { entity_id := "F", unique_cases := 1, states_count := 1,
       total_copresence_weight := 0, total_social_weight := 0,
       recurrence_score := 2/5, cross_jurisdiction_score := 0,
       network_score := 0, total_score := 2/5, rank := 2 }] := by
  norm_num [suspect_rankings, rankingBase, rankingRow, burgRows, uniqueCasesOf,
    statesCountOf, exOverlapRows, mkOv, groupKeys, denseRank, totalCopresenceWeight,
    totalSocialWeight, List.filter_cons, Finset.filter_insert, Finset.filter_singleton,
    min_def]
  simp [rankingRow, burgRows, uniqueCasesOf, statesCountOf, totalCopresenceWeight,
    totalSocialWeight, exOverlapRows, mkOv, List.filter_cons, min_def]
  norm_num [Finset.filter_insert, Finset.filter_singleton]

/-- The overlap scenario event: entity `A` in cell `c`, bucket `b`, with
raw timestamp 100. -/
def exC7Event : LocationEvent := mkEv "A" "c" "b" 100

/-- A case matching cell `c` / bucket `b` whose exact incident window
`[0, 200]` contains the event timestamp. -/
def exC7CaseIn : CaseRow :=
  { case_id := "K1", case_type := "burglary", city := "X", state := "S",
    h3_cell := "c", incident_time_bucket := "b",
    incident_start_ts := 0, incident_end_ts := 200 }

/-- A case matching cell `c` / bucket `b` whose exact incident window
`[0, 50]` excludes the event timestamp. -/
def exC7CaseOut : CaseRow :=
  { case_id := "K2", case_type := "burglary", city := "X", state := "S",
    h3_cell := "c", incident_time_bucket := "b",
    incident_start_ts := 0, incident_end_ts := 50 }

theorem exOverlap_eval :
    entity_case_overlap [exC7Event] [exC7CaseIn, exC7CaseOut] =
      [{ entity_id := "A", case_id := "K1", case_type := "burglary", city := "X",
         state := "S", h3_cell := "c", time_bucket := "b", event_timestamp := 100,
         overlap_score := 1, in_exact_window := true },
       { entity_id := "A", case_id := "K2", case_type := "burglary", city := "X",
         state := "S", h3_cell := "c", time_bucket := "b", event_timestamp := 100,
         overlap_score := 1, in_exact_window := false }] := by
  simp [entity_case_overlap, mkOverlapRow, exC7Event, exC7CaseIn, exC7CaseOut, mkEv]

/-- Twenty distinct single-character entity names. -/
def names20 : List String :=
  ["a", "b", "c", "d", "e", "f", "g", "h", "i", "j",
   "k", "l", "m", "n", "o", "p", "q", "r", "s", "t"]

/-- Twenty distinct entities in cell `c1` and nineteen in cell `c2`,
all in the same bucket. -/
def exCellEvents : List LocationEvent :=
  (names20.map fun s => mkEv s "c1" "b" 0) ++
    ((names20.take 19).map fun s => mkEv s "c2" "b" 0)

theorem exCell_eval : cell_device_counts exCellEvents =
    [{ h3_cell := "c1", time_bucket := "b", city := "X", state := "S",
       device_count := 20, is_high_activity := true, activity_category := "high" },
     { h3_cell := "c2", time_bucket := "b", city := "X", state := "S",
       device_count := 19, is_high_activity := false, activity_category := "medium" }] := by
  decide

/-! Structural lemmas for the co-presence engine. -/

theorem mem_copresencePairs {events : List LocationEvent} {e1 e2 : LocationEvent} :
    (e1, e2) ∈ copresencePairs events ↔
      e1 ∈ events ∧ e2 ∈ events ∧ e1.h3_cell = e2.h3_cell ∧
        e1.time_bucket = e2.time_bucket ∧ e1.entity_id.data < e2.entity_id.data := by
  simp only [copresencePairs, List.mem_flatMap, List.mem_map, List.mem_filter,
    decide_eq_true_eq, Prod.mk.injEq]
  constructor
  · rintro ⟨a, ha, b, ⟨hb, h1, h2, h3⟩, rfl, rfl⟩
    exact ⟨ha, hb, h1, h2, h3⟩
  · rintro ⟨h1, h2, h3, h4, h5⟩
    exact ⟨e1, h1, e2, ⟨h2, h3, h4, h5⟩, rfl, rfl⟩

/-- The group key read back from an output edge row. -/
def coEdgeKey (r : CoPresenceEdge) : String × String × String × String × String :=
  (r.entity_id_1, r.entity_id_2, r.h3_cell, r.city, r.state)

theorem coEdgeKey_coEdgeRow (events : List LocationEvent)
    (k : String × String × String × String × String) :
    coEdgeKey (coEdgeRow events k) = k := by
  obtain ⟨a, b, c, d, e⟩ := k
  rfl

theorem co_presence_edges_map_key (events : List LocationEvent) :
    (co_presence_edges events).map coEdgeKey =
      groupKeys copresenceKey (copresencePairs events) := by
  rw [co_presence_edges, List.map_map]
  conv_rhs => rw [← List.map_id (groupKeys copresenceKey (copresencePairs events))]
  exact List.map_congr_left fun k _ => coEdgeKey_coEdgeRow events k

theorem mem_co_presence_edges {events : List LocationEvent} {r : CoPresenceEdge} :
    r ∈ co_presence_edges events ↔
      ∃ p ∈ copresencePairs events, r = coEdgeRow events (copresenceKey p) := by
  simp only [co_presence_edges, List.mem_map, mem_groupKeys]
  constructor
  · rintro ⟨k, ⟨p, hp, hk⟩, rfl⟩
    exact ⟨p, hp, by rw [hk]⟩
  · rintro ⟨p, hp, rfl⟩
    exact ⟨copresenceKey p, ⟨p, hp, rfl⟩, rfl⟩

theorem co_presence_ids_lt {events : List LocationEvent} {r : CoPresenceEdge}
    (hr : r ∈ co_presence_edges events) : r.entity_id_1 < r.entity_id_2 := by
  rw [mem_co_presence_edges] at hr
  obtain ⟨⟨e1, e2⟩, hp, rfl⟩ := hr
  rw [String.lt_iff_toList_lt]
  exact (mem_copresencePairs.mp hp).2.2.2.2

/-! Claim C1. -/

/-- C1 counterexample: in `exPairEvents`, entities `A` and `B` appear
together in a shared `(h3_cell, time_bucket)` (in fact in two different
cells), yet `co_presence_edges` contains two rows for the pair `(A, B)` —
one per cell — not exactly one, refuting the per-pair uniqueness reading. -/
theorem C1_counterexample :
    (∃ e1 ∈ exPairEvents, ∃ e2 ∈ exPairEvents,
      e1.entity_id = "A" ∧ e2.entity_id = "B" ∧
        e1.h3_cell = e2.h3_cell ∧ e1.time_bucket = e2.time_bucket) ∧
    ((co_presence_edges exPairEvents).filter fun r =>
        r.entity_id_1 = "A" ∧ r.entity_id_2 = "B").length = 2 := by
  constructor
  · decide
  · decide

/-- C1 (amended): in `co_presence_edges`, every row is asymmetric
(`entity_id_1 < entity_id_2`, so no self-pairs), no two rows are mirror
images of each other, every pair of events sharing a cell and bucket with
lexicographically ordered entity ids yields a row for that entity pair and
cell, and rows are unique per `(entity_id_1, entity_id_2, h3_cell, city,
state)` group key — the pair may recur across distinct cells. -/
theorem C1_copresence_rows (events : List LocationEvent) :
    (∀ r ∈ co_presence_edges events, r.entity_id_1 < r.entity_id_2) ∧
    (∀ r ∈ co_presence_edges events, ∀ r2 ∈ co_presence_edges events,
      ¬(r.entity_id_1 = r2.entity_id_2 ∧ r.entity_id_2 = r2.entity_id_1)) ∧
    (∀ e1 ∈ events, ∀ e2 ∈ events,
      e1.h3_cell = e2.h3_cell → e1.time_bucket = e2.time_bucket →
        e1.entity_id < e2.entity_id →
        ∃ r ∈ co_presence_edges events,
          r.entity_id_1 = e1.entity_id ∧ r.entity_id_2 = e2.entity_id ∧
            r.h3_cell = e1.h3_cell) ∧
    ((co_presence_edges events).map coEdgeKey).Nodup := by
  refine ⟨fun r hr => co_presence_ids_lt hr, ?_, ?_, ?_⟩
  · intro r hr r2 hr2 ⟨h1, h2⟩
    have ha := co_presence_ids_lt hr
    have hb := co_presence_ids_lt hr2
    rw [h1, h2] at ha
    exact absurd (ha.trans hb) (lt_irrefl _)
  · intro e1 he1 e2 he2 hc hb hid
    have hp : (e1, e2) ∈ copresencePairs events :=
      mem_copresencePairs.mpr
        ⟨he1, he2, hc, hb, String.lt_iff_toList_lt.mp hid⟩
    exact ⟨coEdgeRow events (copresenceKey (e1, e2)),
      mem_co_presence_edges.mpr ⟨(e1, e2), hp, rfl⟩, rfl, rfl, rfl⟩
  · rw [co_presence_edges_map_key]
    exact nodup_groupKeys _ _

/-- C1 witness: the amended theorem applied to `exPairEvents` at the
concrete co-occurring events of `A` and `B` in cell `c1`. -/
theorem C1_copresence_rows_witness :
    (mkEv "A" "c1" "b1" 0 ∈ exPairEvents ∧ mkEv "B" "c1" "b1" 0 ∈ exPairEvents ∧
      (mkEv "A" "c1" "b1" 0).h3_cell = (mkEv "B" "c1" "b1" 0).h3_cell ∧
      (mkEv "A" "c1" "b1" 0).time_bucket = (mkEv "B" "c1" "b1" 0).time_bucket ∧
      (mkEv "A" "c1" "b1" 0).entity_id < (mkEv "B" "c1" "b1" 0).entity_id) ∧
    ∃ r ∈ co_presence_edges exPairEvents,
      r.entity_id_1 = (mkEv "A" "c1" "b1" 0).entity_id ∧
        r.entity_id_2 = (mkEv "B" "c1" "b1" 0).entity_id ∧
        r.h3_cell = (mkEv "A" "c1" "b1" 0).h3_cell :=
  ⟨⟨by decide, by decide, rfl, rfl, String.lt_iff_toList_lt.mpr (by decide)⟩,
    (C1_copresence_rows exPairEvents).2.2.1 _ (by decide) _ (by decide) rfl rfl
      (String.lt_iff_toList_lt.mpr (by decide))⟩

/-! Claim C6. -/

/-- C6: every co-presence edge has
`weight = min(1.0, co_occurrence_count / 5.0)`; consequently weight is
monotone in the count across any two edges, and any edge with
`co_occurrence_count ≥ 5` has weight exactly 1. -/
theorem C6_weight_saturation (events : List LocationEvent) :
    (∀ r ∈ co_presence_edges events,
      r.weight = min 1 ((r.co_occurrence_count : ℚ) / 5)) ∧
    (∀ r ∈ co_presence_edges events, ∀ r2 ∈ co_presence_edges events,
      r.co_occurrence_count ≤ r2.co_occurrence_count → r.weight ≤ r2.weight) ∧
    (∀ r ∈ co_presence_edges events, 5 ≤ r.co_occurrence_count → r.weight = 1) := by
  have hw : ∀ r ∈ co_presence_edges events,
      r.weight = min 1 ((r.co_occurrence_count : ℚ) / 5) := by
    intro r hr
    rw [mem_co_presence_edges] at hr
    obtain ⟨p, hp, rfl⟩ := hr
    rfl
  refine ⟨hw, ?_, ?_⟩
  · intro r hr r2 hr2 hle
    rw [hw r hr, hw r2 hr2]
    exact min_le_min le_rfl
      ((div_le_div_iff_of_pos_right (by norm_num : (0:ℚ) < 5)).mpr (Nat.cast_le.mpr hle))
  · intro r hr h5
    rw [hw r hr]
    refine min_eq_left ?_
    rw [le_div_iff₀ (by norm_num : (0:ℚ) < 5)]
    calc (1 : ℚ) * 5 = 5 := by norm_num
      _ ≤ (r.co_occurrence_count : ℚ) := by exact_mod_cast h5

/-- The first co-presence edge of `exHandoffEvents`, used as a concrete
instance. -/
def exEdgeOPc1 : CoPresenceEdge :=
  { entity_id_1 := "O", entity_id_2 := "P", h3_cell := "c1", city := "X", state := "S",
    co_occurrence_count := 1, time_buckets := ["b1"], weight := 1/5,
    edge_id := "COP_O_P" }

/-- C6 witness: the weight law checked on a concrete edge of
`exHandoffEvents`. -/
theorem C6_weight_saturation_witness :
    exEdgeOPc1 ∈ co_presence_edges exHandoffEvents ∧
      exEdgeOPc1.weight = min 1 ((exEdgeOPc1.co_occurrence_count : ℚ) / 5) :=
  ⟨by rw [exCop_eval, exEdgeOPc1]; simp,
    (C6_weight_saturation exHandoffEvents).1 _ (by rw [exCop_eval, exEdgeOPc1]; simp)⟩

/-! Claim C7. -/

/-- C7: `entity_case_overlap` joins events to cases exactly on
`(h3_cell, time_bucket = incident_time_bucket)`; every matching
(event, case) pair yields its row regardless of the exact window;
`in_exact_window` is true precisely when the event timestamp lies in
`[incident_start, incident_end]`; every output row comes from a matching
pair; and the number of rows equals the number of matching pairs. -/
theorem C7_overlap_join (events : List LocationEvent) (cases : List CaseRow) :
    (∀ e ∈ events, ∀ c ∈ cases,
      e.h3_cell = c.h3_cell → e.time_bucket = c.incident_time_bucket →
        mkOverlapRow e c ∈ entity_case_overlap events cases ∧
          ((mkOverlapRow e c).in_exact_window = true ↔
            c.incident_start_ts ≤ e.event_timestamp ∧
              e.event_timestamp ≤ c.incident_end_ts)) ∧
    (∀ r ∈ entity_case_overlap events cases,
      ∃ e ∈ events, ∃ c ∈ cases,
        e.h3_cell = c.h3_cell ∧ e.time_bucket = c.incident_time_bucket ∧
          r = mkOverlapRow e c) ∧
    (entity_case_overlap events cases).length =
      ((events ×ˢ cases).filter fun p =>
        p.1.h3_cell = p.2.h3_cell ∧
          p.1.time_bucket = p.2.incident_time_bucket).length := by
  refine ⟨?_, ?_, ?_⟩
  · intro e he c hc h1 h2
    constructor
    · simp only [entity_case_overlap, List.mem_flatMap, List.mem_map, List.mem_filter]
      exact ⟨e, he, c, by simp [hc, h1, h2], rfl⟩
    · simp [mkOverlapRow]
  · intro r hr
    simp only [entity_case_overlap, List.mem_flatMap, List.mem_map,
      List.mem_filter, decide_eq_true_eq] at hr
    obtain ⟨e, he, c, ⟨hc, h1, h2⟩, rfl⟩ := hr
    exact ⟨e, he, c, hc, h1, h2, rfl⟩
  · induction events with
    | nil => rfl
    | cons e es ih =>
      simp only [entity_case_overlap, List.flatMap_cons, List.length_append,
        List.length_map, List.product_cons, List.filter_append, List.filter_map,
        Function.comp_def] at ih ⊢
      omega

/-- C7 witness: the join law applied to the concrete event and the case
whose exact window excludes the event timestamp — the row is still
present, with `in_exact_window = false`. -/
theorem C7_overlap_join_witness :
    (exC7Event ∈ [exC7Event] ∧ exC7CaseOut ∈ [exC7CaseIn, exC7CaseOut] ∧
      exC7Event.h3_cell = exC7CaseOut.h3_cell ∧
      exC7Event.time_bucket = exC7CaseOut.incident_time_bucket) ∧
    (mkOverlapRow exC7Event exC7CaseOut ∈
        entity_case_overlap [exC7Event] [exC7CaseIn, exC7CaseOut] ∧
      ((mkOverlapRow exC7Event exC7CaseOut).in_exact_window = true ↔
        exC7CaseOut.incident_start_ts ≤ exC7Event.event_timestamp ∧
          exC7Event.event_timestamp ≤ exC7CaseOut.incident_end_ts)) :=
  ⟨⟨by decide, by decide, rfl, rfl⟩,
    (C7_overlap_join [exC7Event] [exC7CaseIn, exC7CaseOut]).1
      exC7Event (by decide) exC7CaseOut (by decide) rfl rfl⟩

/-! Claim C9. -/

theorem activityCategory_iff (dc : Nat) :
    (activityCategory dc = "very_high" ↔ 40 ≤ dc) ∧
    (activityCategory dc = "high" ↔ 20 ≤ dc ∧ dc < 40) ∧
    (activityCategory dc = "medium" ↔ 10 ≤ dc ∧ dc < 20) ∧
    (activityCategory dc = "low" ↔ dc < 10) := by
  unfold activityCategory
  split_ifs with h1 h2 h3 <;> simp_all <;> omega

/-- The group key read back from a cell-count row. -/
def cellRowKey (r : CellDeviceCount) : String × String × String × String :=
  (r.h3_cell, r.time_bucket, r.city, r.state)

theorem cellRowKey_cellRow (events : List LocationEvent)
    (k : String × String × String × String) : cellRowKey (cellRow events k) = k := by
  obtain ⟨a, b, c, d⟩ := k
  rfl

/-- C9: `cell_device_counts` carries exactly one row per distinct
`(h3_cell, time_bucket, city, state)` group of the events; each row's
`device_count` is the number of distinct entity ids of its group, and
`activity_category` follows the 40/20/10 thresholds — in particular a
count of exactly 20 is `"high"` and 19 is `"medium"`. -/
theorem C9_cell_device_counts (events : List LocationEvent) :
    ((cell_device_counts events).map cellRowKey = groupKeys cellKey events) ∧
    (∀ r ∈ cell_device_counts events,
      r.device_count = deviceCountOf events (cellRowKey r) ∧
      r.activity_category = activityCategory r.device_count ∧
      (r.activity_category = "very_high" ↔ 40 ≤ r.device_count) ∧
      (r.activity_category = "high" ↔ 20 ≤ r.device_count ∧ r.device_count < 40) ∧
      (r.activity_category = "medium" ↔ 10 ≤ r.device_count ∧ r.device_count < 20) ∧
      (r.activity_category = "low" ↔ r.device_count < 10) ∧
      (r.device_count = 20 → r.activity_category = "high") ∧
      (r.device_count = 19 → r.activity_category = "medium")) := by
  constructor
  · rw [cell_device_counts, List.map_map]
    conv_rhs => rw [← List.map_id (groupKeys cellKey events)]
    exact List.map_congr_left fun k _ => cellRowKey_cellRow events k
  · intro r hr
    rw [cell_device_counts, List.mem_map] at hr
    obtain ⟨k, hk, rfl⟩ := hr
    rw [cellRowKey_cellRow]
    refine ⟨rfl, rfl, (activityCategory_iff _).1, (activityCategory_iff _).2.1,
      (activityCategory_iff _).2.2.1, (activityCategory_iff _).2.2.2, ?_, ?_⟩
    · intro h20
      have h : deviceCountOf events k = 20 := h20
      exact ((activityCategory_iff (deviceCountOf events k)).2.1).mpr (by omega)
    · intro h19
      have h : deviceCountOf events k = 19 := h19
      exact ((activityCategory_iff (deviceCountOf events k)).2.2.1).mpr (by omega)

/-- The `c1` group row of `exCellEvents`, with exactly 20 distinct
entities. -/
def exCellRow20 : CellDeviceCount :=
  { h3_cell := "c1", time_bucket := "b", city := "X", state := "S",
    device_count := 20, is_high_activity := true, activity_category := "high" }

/-- C9 witness: the threshold law applied to the concrete 20-entity group
of `exCellEvents`. -/
theorem C9_cell_device_counts_witness :
    (exCellRow20 ∈ cell_device_counts exCellEvents ∧ exCellRow20.device_count = 20) ∧
      exCellRow20.activity_category = "high" :=
  ⟨⟨by decide, rfl⟩,
    ((C9_cell_device_counts exCellEvents).2 exCellRow20 (by decide)).2.2.2.2.2.2.1 rfl⟩

/-! Dense-rank lemmas. -/

/-- For every `j` below the size of a finite set of rationals, some element
has exactly `j` elements above it. -/
theorem exists_filter_lt_card (j : Nat) :
    ∀ F : Finset ℚ, j < F.card → ∃ s ∈ F, (F.filter fun t => s < t).card = j := by
  induction j with
  | zero =>
    intro F hF
    have hne : F.Nonempty := Finset.card_pos.mp hF
    refine ⟨F.max' hne, F.max'_mem hne, ?_⟩
    rw [Finset.card_eq_zero, Finset.filter_eq_empty_iff]
    intro t ht
    exact not_lt.mpr (F.le_max' t ht)
  | succ j ih =>
    intro F hF
    have hne : F.Nonempty := Finset.card_pos.mp (Nat.lt_of_le_of_lt (Nat.zero_le _) hF)
    have hmm : F.max' hne ∈ F := F.max'_mem hne
    have hcard : (F.erase (F.max' hne)).card = F.card - 1 := Finset.card_erase_of_mem hmm
    obtain ⟨s, hs, hcount⟩ := ih (F.erase (F.max' hne)) (by omega)
    have hsF : s ∈ F := Finset.mem_of_mem_erase hs
    have hsm : s < F.max' hne :=
      lt_of_le_of_ne (F.le_max' s hsF) (Finset.ne_of_mem_erase hs)
    refine ⟨s, hsF, ?_⟩
    have key : F.filter (fun t => s < t) =
        insert (F.max' hne) ((F.erase (F.max' hne)).filter fun t => s < t) := by
      ext t
      simp only [Finset.mem_filter, Finset.mem_insert, Finset.mem_erase]
      constructor
      · rintro ⟨htF, hst⟩
        by_cases htm : t = F.max' hne
        · exact Or.inl htm
        · exact Or.inr ⟨⟨htm, htF⟩, hst⟩
      · rintro (rfl | ⟨⟨htm, htF⟩, hst⟩)
        · exact ⟨hmm, hsm⟩
        · exact ⟨htF, hst⟩
    have hnm : F.max' hne ∉ (F.erase (F.max' hne)).filter fun t => s < t :=
      fun hmem => (Finset.mem_erase.mp (Finset.mem_filter.mp hmem).1).1 rfl
    rw [key, Finset.card_insert_of_not_mem hnm, hcount]

theorem denseRank_bounds {S : List ℚ} {s : ℚ} (hs : s ∈ S) :
    1 ≤ denseRank S s ∧ denseRank S s ≤ S.toFinset.card := by
  refine ⟨Nat.succ_le_succ (Nat.zero_le _), ?_⟩
  have hsF : s ∈ S.toFinset := List.mem_toFinset.mpr hs
  have hss : S.toFinset.filter (fun t => s < t) ⊂ S.toFinset := by
    refine (Finset.ssubset_iff_of_subset (Finset.filter_subset _ _)).mpr ⟨s, hsF, ?_⟩
    simp
  have := Finset.card_lt_card hss
  unfold denseRank
  omega

theorem denseRank_surjective (S : List ℚ) (j : Nat) (h1 : 1 ≤ j)
    (h2 : j ≤ S.toFinset.card) : ∃ s ∈ S, denseRank S s = j := by
  obtain ⟨s, hsF, hc⟩ := exists_filter_lt_card (j - 1) S.toFinset (by omega)
  refine ⟨s, List.mem_toFinset.mp hsF, ?_⟩
  unfold denseRank
  omega

theorem denseRank_eq_one_iff {S : List ℚ} {s : ℚ} :
    denseRank S s = 1 ↔ ∀ t ∈ S, t ≤ s := by
  unfold denseRank
  constructor
  · intro h t ht
    by_contra hlt
    push_neg at hlt
    have hmem : t ∈ S.toFinset.filter fun u => s < u :=
      Finset.mem_filter.mpr ⟨List.mem_toFinset.mpr ht, hlt⟩
    have := Finset.card_pos.mpr ⟨t, hmem⟩
    omega
  · intro h
    have hempty : (S.toFinset.filter fun t => s < t) = ∅ := by
      rw [Finset.filter_eq_empty_iff]
      intro t ht
      exact not_lt.mpr (h t (List.mem_toFinset.mp ht))
    rw [hempty]
    rfl

/-! Claim C8. -/

theorem suspect_scores_eq (overlap : List OverlapRow) (cop : List CoPresenceEdge)
    (social : List SocialEdge) :
    (suspect_rankings overlap cop social).map (fun x => x.total_score) =
      (rankingBase overlap cop social).map fun x => x.total_score := by
  simp only [suspect_rankings, List.map_map]
  rfl

theorem suspect_rank_eq {overlap : List OverlapRow} {cop : List CoPresenceEdge}
    {social : List SocialEdge} {r : SuspectRanking}
    (hr : r ∈ suspect_rankings overlap cop social) :
    r.rank = denseRank
      ((suspect_rankings overlap cop social).map fun x => x.total_score)
      r.total_score := by
  rw [suspect_scores_eq]
  simp only [suspect_rankings, List.mem_map] at hr
  obtain ⟨b, hb, rfl⟩ := hr
  rfl

/-- C8: in `suspect_rankings` the `rank` column is a dense rank over
`total_score` descending: equal scores share a rank, every rank lies in
`{1, ..., k}` where `k` is the number of distinct scores, every value of
`{1, ..., k}` is attained, and rank 1 is held exactly by the rows of
maximal `total_score`. -/
theorem C8_dense_rank (overlap : List OverlapRow) (cop : List CoPresenceEdge)
    (social : List SocialEdge) :
    (∀ r ∈ suspect_rankings overlap cop social,
      ∀ r2 ∈ suspect_rankings overlap cop social,
        r.total_score = r2.total_score → r.rank = r2.rank) ∧
    (∀ r ∈ suspect_rankings overlap cop social,
      1 ≤ r.rank ∧ r.rank ≤
        ((suspect_rankings overlap cop social).map fun x => x.total_score).toFinset.card) ∧
    (∀ j, 1 ≤ j →
      j ≤ ((suspect_rankings overlap cop social).map fun x => x.total_score).toFinset.card →
      ∃ r ∈ suspect_rankings overlap cop social, r.rank = j) ∧
    (∀ r ∈ suspect_rankings overlap cop social,
      (r.rank = 1 ↔
        ∀ r2 ∈ suspect_rankings overlap cop social, r2.total_score ≤ r.total_score)) := by
  refine ⟨?_, ?_, ?_, ?_⟩
  · intro r hr r2 hr2 hscore
    rw [suspect_rank_eq hr, suspect_rank_eq hr2, hscore]
  · intro r hr
    rw [suspect_rank_eq hr]
    exact denseRank_bounds (List.mem_map.mpr ⟨r, hr, rfl⟩)
  · intro j h1 h2
    obtain ⟨s, hsmem, hrank⟩ := denseRank_surjective
      ((suspect_rankings overlap cop social).map fun x => x.total_score) j h1 h2
    obtain ⟨r, hr, rfl⟩ := List.mem_map.mp hsmem
    exact ⟨r, hr, (suspect_rank_eq hr).trans hrank⟩
  · intro r hr
    rw [suspect_rank_eq hr, denseRank_eq_one_iff]
    constructor
    · intro h r2 hr2
      exact h _ (List.mem_map.mpr ⟨r2, hr2, rfl⟩)
    · rintro h t ht
      obtain ⟨r2, hr2, rfl⟩ := List.mem_map.mp ht
      exact h r2 hr2

/-- C8 witness: on the concrete ranking input both ranks 1 and 2 are
attained (two distinct scores, no gap). -/
theorem C8_dense_rank_witness :
    (1 ≤ 2 ∧
      2 ≤ ((suspect_rankings exOverlapRows [] []).map fun x => x.total_score).toFinset.card) ∧
      ∃ r ∈ suspect_rankings exOverlapRows [] [], r.rank = 2 :=
  ⟨⟨by norm_num, by
      rw [exRankings_eval]
      simp only [List.map_cons, List.map_nil, List.toFinset_cons, List.toFinset_nil,
        insert_emptyc_eq]
      rw [Finset.card_pair (by norm_num)]⟩,
    (C8_dense_rank exOverlapRows [] []).2.2.1 2 (by norm_num) (by
      rw [exRankings_eval]
      simp only [List.map_cons, List.map_nil, List.toFinset_cons, List.toFinset_nil,
        insert_emptyc_eq]
      rw [Finset.card_pair (by norm_num)])⟩

/-! Claim C2. -/

theorem totalCopresenceWeight_eq_zero {cop : List CoPresenceEdge} {eid : String}
    (h : ∀ c ∈ cop, c.entity_id_1 ≠ eid ∧ c.entity_id_2 ≠ eid) :
    totalCopresenceWeight cop eid = 0 := by
  unfold totalCopresenceWeight
  rw [List.filter_eq_nil_iff.mpr fun c hc => by simpa using (h c hc).1,
    List.filter_eq_nil_iff.mpr fun c hc => by simpa using (h c hc).2]
  simp

theorem totalSocialWeight_eq_zero {social : List SocialEdge} {eid : String}
    (h : ∀ e ∈ social, e.entity_id_1 ≠ eid ∧ e.entity_id_2 ≠ eid) :
    totalSocialWeight social eid = 0 := by
  unfold totalSocialWeight
  rw [List.filter_eq_nil_iff.mpr fun e he => by simpa using (h e he).1,
    List.filter_eq_nil_iff.mpr fun e he => by simpa using (h e he).2]
  simp

theorem mem_suspect_rankings {overlap : List OverlapRow} {cop : List CoPresenceEdge}
    {social : List SocialEdge} {r : SuspectRanking} :
    r ∈ suspect_rankings overlap cop social ↔
      ∃ eid ∈ groupKeys (fun o => o.entity_id)
          (overlap.filter fun o => o.case_type = "burglary"),
        r = { rankingRow overlap cop social eid with
              rank := denseRank
                ((rankingBase overlap cop social).map fun x => x.total_score)
                (rankingRow overlap cop social eid).total_score } := by
  simp only [suspect_rankings, rankingBase, List.mem_map]
  constructor
  · rintro ⟨b, ⟨eid, heid, rfl⟩, rfl⟩
    exact ⟨eid, heid, rfl⟩
  · rintro ⟨eid, heid, rfl⟩
    exact ⟨rankingRow overlap cop social eid, ⟨eid, heid, rfl⟩, rfl⟩

/-- C2: every suspect-ranking row satisfies the scoring formulas
(`recurrence = unique_cases * 0.4`, binary cross-jurisdiction `0.35`,
network capped at `0.25`, total the sum of the three); an entity appears
iff it has a burglary overlap row (absent co-presence or social rows only
zero the corresponding sum); and 3 cases over 2 states with zero weights
gives total 1.55. -/
theorem C2_scoring (overlap : List OverlapRow) (cop : List CoPresenceEdge)
    (social : List SocialEdge) :
    (∀ r ∈ suspect_rankings overlap cop social,
      r.recurrence_score = (r.unique_cases : ℚ) * (2 / 5) ∧
      r.cross_jurisdiction_score = (if 1 < r.states_count then (7 : ℚ) / 20 else 0) ∧
      r.network_score = min (1 / 4) (r.total_copresence_weight * (1 / 10) +
        r.total_social_weight * (3 / 20)) ∧
      r.total_score = r.recurrence_score + r.cross_jurisdiction_score + r.network_score ∧
      ((∀ c ∈ cop, c.entity_id_1 ≠ r.entity_id ∧ c.entity_id_2 ≠ r.entity_id) →
        r.total_copresence_weight = 0) ∧
      ((∀ e ∈ social, e.entity_id_1 ≠ r.entity_id ∧ e.entity_id_2 ≠ r.entity_id) →
        r.total_social_weight = 0) ∧
      (r.unique_cases = 3 → r.states_count = 2 → r.total_copresence_weight = 0 →
        r.total_social_weight = 0 → r.total_score = 31 / 20)) ∧
    (∀ eid : String,
      (∃ o ∈ overlap, o.case_type = "burglary" ∧ o.entity_id = eid) ↔
        ∃ r ∈ suspect_rankings overlap cop social, r.entity_id = eid) := by
  constructor
  · intro r hr
    obtain ⟨eid, heid, rfl⟩ := mem_suspect_rankings.mp hr
    refine ⟨rfl, rfl, rfl, rfl, ?_, ?_, ?_⟩
    · intro h
      exact totalCopresenceWeight_eq_zero h
    · intro h
      exact totalSocialWeight_eq_zero h
    · intro h3 h2 hcw hsw
      show (uniqueCasesOf overlap eid : ℚ) * (2 / 5) +
        (if 1 < statesCountOf overlap eid then (7 : ℚ) / 20 else 0) +
        min (1 / 4) (totalCopresenceWeight cop eid * (1 / 10) +
          totalSocialWeight social eid * (3 / 20)) = 31 / 20
      have h3 : uniqueCasesOf overlap eid = 3 := h3
      have h2 : statesCountOf overlap eid = 2 := h2
      have hcw : totalCopresenceWeight cop eid = 0 := hcw
      have hsw : totalSocialWeight social eid = 0 := hsw
      rw [h3, h2, hcw, hsw]
      norm_num [min_def]
  · intro eid
    constructor
    · rintro ⟨o, ho, htype, hid⟩
      have hk : eid ∈ groupKeys (fun x => x.entity_id)
          (overlap.filter fun x => x.case_type = "burglary") :=
        mem_groupKeys.mpr ⟨o, List.mem_filter.mpr ⟨ho, by simpa using htype⟩, hid⟩
      exact ⟨_, mem_suspect_rankings.mpr ⟨eid, hk, rfl⟩, rfl⟩
    · rintro ⟨r, hr, rfl⟩
      obtain ⟨eid, heid, rfl⟩ := mem_suspect_rankings.mp hr
      obtain ⟨o, ho, hid⟩ := mem_groupKeys.mp heid
      exact ⟨o, (List.mem_filter.mp ho).1,
        by simpa using (List.mem_filter.mp ho).2, hid⟩

/-- The top-ranked concrete row of the C2 scenario. -/
def exRankRowE : SuspectRanking :=
  { entity_id := "E", unique_cases := 3, states_count := 2,
    total_copresence_weight := 0, total_social_weight := 0,
    recurrence_score := 6/5, cross_jurisdiction_score := 7/20,
    network_score := 0, total_score := 31/20, rank := 1 }

/-- C2 witness: the 3-cases / 2-states / zero-weights entity of
`exOverlapRows` scores exactly 1.55. -/
theorem C2_scoring_witness :
    (exRankRowE ∈ suspect_rankings exOverlapRows [] [] ∧
      exRankRowE.unique_cases = 3 ∧ exRankRowE.states_count = 2 ∧
      exRankRowE.total_copresence_weight = 0 ∧ exRankRowE.total_social_weight = 0) ∧
    exRankRowE.total_score = 31 / 20 :=
  ⟨⟨by rw [exRankings_eval]; simp [exRankRowE], rfl, rfl, rfl, rfl⟩,
    ((C2_scoring exOverlapRows [] []).1 exRankRowE
      (by rw [exRankings_eval]; simp [exRankRowE])).2.2.2.2.2.2 rfl rfl rfl rfl⟩

/-! Structural lemmas for the handoff engine. -/

theorem mem_entityCellStats {events : List LocationEvent} {s : EntityCellStats} :
    s ∈ entityCellStats events ↔
      ∃ k ∈ groupKeys (fun e => (e.entity_id, e.h3_cell)) events,
        s = entityCellRow events k := by
  simp only [entityCellStats, List.mem_map]
  constructor
  · rintro ⟨k, hk, rfl⟩
    exact ⟨k, hk, rfl⟩
  · rintro ⟨k, hk, rfl⟩
    exact ⟨k, hk, rfl⟩

theorem entityCellStats_source {events : List LocationEvent} {s : EntityCellStats}
    (hs : s ∈ entityCellStats events) :
    ∃ e ∈ events, e.entity_id = s.entity_id ∧ e.h3_cell = s.h3_cell := by
  obtain ⟨k, hk, rfl⟩ := mem_entityCellStats.mp hs
  obtain ⟨e, he, hke⟩ := mem_groupKeys.mp hk
  obtain ⟨k1, k2⟩ := k
  simp only [Prod.mk.injEq] at hke
  exact ⟨e, he, hke.1, hke.2⟩

theorem mem_handoffPairs {events : List LocationEvent} {h : HandoffPair} :
    h ∈ handoffPairs events ↔
      ∃ o ∈ entityCellStats events, ∃ n ∈ entityCellStats events,
        o.h3_cell = n.h3_cell ∧ o.entity_id ≠ n.entity_id ∧
          0 < timeDiffMinutes o n ∧ timeDiffMinutes o n ≤ 30 ∧
          h = mkHandoffPair o n := by
  simp only [handoffPairs, List.mem_flatMap, List.mem_map, List.mem_filter,
    Bool.and_eq_true, decide_eq_true_eq]
  constructor
  · rintro ⟨o, ho, n, ⟨hn, h1, h2, h3, h4⟩, rfl⟩
    exact ⟨o, ho, n, hn, h1, h2, h3, h4, rfl⟩
  · rintro ⟨o, ho, n, hn, h1, h2, h3, h4, rfl⟩
    exact ⟨o, ho, n, ⟨hn, h1, h2, h3, h4⟩, rfl⟩

theorem mem_handoff_candidates {events : List LocationEvent}
    {cop : List CoPresenceEdge} {r : HandoffCandidate} :
    r ∈ handoff_candidates events cop ↔
      ∃ h ∈ handoffPairs events,
        r = { handoffScoredRow cop h with
              rank := denseRank
                (((handoffPairs events).map (handoffScoredRow cop)).map fun x =>
                  x.handoff_score)
                (handoffScoredRow cop h).handoff_score } := by
  simp only [handoff_candidates, List.mem_map]
  constructor
  · rintro ⟨b, ⟨h, hh, rfl⟩, rfl⟩
    exact ⟨h, hh, rfl⟩
  · rintro ⟨h, hh, rfl⟩
    exact ⟨handoffScoredRow cop h, ⟨h, hh, rfl⟩, rfl⟩

/-! Claim C3. -/

/-- C3: every handoff candidate row relates two distinct entities that
both appear (in the events) in the row's cell, and its
`time_diff_minutes` — the new entity's `first_seen_ts` minus the old
entity's `last_seen_ts` in that cell, divided by 60 — lies strictly in
`(0, 30]`; pairs with a gap outside `(0, 30]` never appear. -/
theorem C3_handoff_filter (events : List LocationEvent) (cop : List CoPresenceEdge) :
    ∀ r ∈ handoff_candidates events cop,
      r.old_entity_id ≠ r.new_entity_id ∧
      0 < r.time_diff_minutes ∧ r.time_diff_minutes ≤ 30 ∧
      ∃ o ∈ entityCellStats events, ∃ n ∈ entityCellStats events,
        o.entity_id = r.old_entity_id ∧ n.entity_id = r.new_entity_id ∧
        o.h3_cell = r.h3_cell ∧ n.h3_cell = r.h3_cell ∧
        r.time_diff_minutes = ((n.first_seen_ts - o.last_seen_ts : ℤ) : ℚ) / 60 ∧
        (∃ e ∈ events, e.entity_id = r.old_entity_id ∧ e.h3_cell = r.h3_cell) ∧
        (∃ e ∈ events, e.entity_id = r.new_entity_id ∧ e.h3_cell = r.h3_cell) := by
  intro r hr
  obtain ⟨h, hh, rfl⟩ := mem_handoff_candidates.mp hr
  obtain ⟨o, ho, n, hn, hcell, hne, hpos, hle, rfl⟩ := mem_handoffPairs.mp hh
  obtain ⟨eo, heo, heo1, heo2⟩ := entityCellStats_source ho
  obtain ⟨en, hen, hen1, hen2⟩ := entityCellStats_source hn
  exact ⟨hne, hpos, hle, o, ho, n, hn, rfl, rfl, rfl, hcell.symm, rfl,
    ⟨eo, heo, heo1, heo2⟩, ⟨en, hen, hen1, hen2.trans hcell.symm⟩⟩

/-- The unique handoff candidate of `exHandoffEvents`. -/
def exCandidateRow : HandoffCandidate :=
  { old_entity_id := "O", new_entity_id := "N", h3_cell := "c0", old_last_bucket := "b1",
    new_first_bucket := "b2", time_diff_minutes := 15, shared_partner_count := 2,
    spatial_score := 1/2, temporal_score := 3/10, partner_score := 1/5,
    handoff_score := 1, rank := 1 }

/-- C3 witness: the filter law applied to the concrete candidate of
`exHandoffEvents`. -/
theorem C3_handoff_filter_witness :
    exCandidateRow ∈ handoff_candidates exHandoffEvents (co_presence_edges exHandoffEvents) ∧
      (exCandidateRow.old_entity_id ≠ exCandidateRow.new_entity_id ∧
        0 < exCandidateRow.time_diff_minutes ∧ exCandidateRow.time_diff_minutes ≤ 30) :=
  ⟨by rw [exCandidates_eval]; simp [exCandidateRow],
    match C3_handoff_filter exHandoffEvents (co_presence_edges exHandoffEvents)
      exCandidateRow (by rw [exCandidates_eval]; simp [exCandidateRow]) with
    | ⟨h1, h2, h3, _⟩ => ⟨h1, h2, h3⟩⟩

/-! Claim C4. -/

/-- C4: every handoff candidate's scores satisfy
`spatial_score = 0.5`, the three-tier `temporal_score` law (whose `0.1`
tier is unreachable for surviving rows: only `0.3` and `0.2` occur),
the binary `partner_score`, and
`handoff_score = spatial + temporal + partner ∈ [0.5, 1.0]`. -/
theorem C4_handoff_scores (events : List LocationEvent) (cop : List CoPresenceEdge) :
    ∀ r ∈ handoff_candidates events cop,
      r.spatial_score = 1 / 2 ∧
      r.temporal_score = (if r.time_diff_minutes ≤ 15 then (3 : ℚ) / 10
        else if r.time_diff_minutes ≤ 30 then 1 / 5 else 1 / 10) ∧
      (r.temporal_score = 3 / 10 ∨ r.temporal_score = 1 / 5) ∧
      r.partner_score = (if 0 < r.shared_partner_count then (1 : ℚ) / 5 else 0) ∧
      r.handoff_score = r.spatial_score + r.temporal_score + r.partner_score ∧
      1 / 2 ≤ r.handoff_score ∧ r.handoff_score ≤ 1 := by
  intro r hr
  obtain ⟨h, hh, rfl⟩ := mem_handoff_candidates.mp hr
  obtain ⟨o, ho, n, hn, hcell, hne, hpos, hle, rfl⟩ := mem_handoffPairs.mp hh
  have htemp : temporalScore (mkHandoffPair o n) = 3 / 10 ∨
      temporalScore (mkHandoffPair o n) = 1 / 5 := by
    unfold temporalScore
    by_cases h15 : (mkHandoffPair o n).time_diff_minutes ≤ 15
    · rw [if_pos h15]
      exact Or.inl rfl
    · have hle' : (mkHandoffPair o n).time_diff_minutes ≤ 30 := hle
      rw [if_neg h15, if_pos hle']
      exact Or.inr rfl
  have hpart : partnerScore cop (mkHandoffPair o n) = 1 / 5 ∨
      partnerScore cop (mkHandoffPair o n) = 0 := by
    unfold partnerScore
    by_cases hp : 0 < sharedPartnerCount cop (mkHandoffPair o n).old_entity_id
        (mkHandoffPair o n).new_entity_id
    · rw [if_pos hp]
      exact Or.inl rfl
    · rw [if_neg hp]
      exact Or.inr rfl
  refine ⟨rfl, rfl, htemp, rfl, rfl, ?_, ?_⟩
  · show (1 : ℚ) / 2 ≤ 1 / 2 + temporalScore (mkHandoffPair o n) +
      partnerScore cop (mkHandoffPair o n)
    rcases htemp with ht | ht <;> rcases hpart with hp | hp <;>
      rw [ht, hp] <;> norm_num
  · show (1 : ℚ) / 2 + temporalScore (mkHandoffPair o n) +
      partnerScore cop (mkHandoffPair o n) ≤ 1
    rcases htemp with ht | ht <;> rcases hpart with hp | hp <;>
      rw [ht, hp] <;> norm_num

/-- C4 witness: the score laws applied to the concrete candidate, whose
`handoff_score` is exactly 1. -/
theorem C4_handoff_scores_witness :
    exCandidateRow ∈ handoff_candidates exHandoffEvents (co_presence_edges exHandoffEvents) ∧
      (exCandidateRow.spatial_score = 1 / 2 ∧
        (exCandidateRow.temporal_score = 3 / 10 ∨ exCandidateRow.temporal_score = 1 / 5) ∧
        1 / 2 ≤ exCandidateRow.handoff_score ∧ exCandidateRow.handoff_score ≤ 1) :=
  ⟨by rw [exCandidates_eval]; simp [exCandidateRow],
    match C4_handoff_scores exHandoffEvents (co_presence_edges exHandoffEvents)
      exCandidateRow (by rw [exCandidates_eval]; simp [exCandidateRow]) with
    | ⟨h1, _, h3, _, _, h6, h7⟩ => ⟨h1, h3, h6, h7⟩⟩

/-! Claim C10. -/

theorem maximum_unbot'_mem {l : List Int} (h : l ≠ []) :
    (l.maximum).unbot' 0 ∈ l := by
  cases hm : l.maximum with
  | bot => exact absurd (List.maximum_eq_bot.mp hm) h
  | coe m =>
    rw [WithBot.unbot'_coe]
    exact List.maximum_mem hm

theorem minimum_untop'_mem {l : List Int} (h : l ≠ []) :
    (l.minimum).untop' 0 ∈ l := by
  cases hm : l.minimum with
  | top => exact absurd (List.minimum_eq_top.mp hm) h
  | coe m =>
    rw [WithTop.untop'_coe]
    exact List.minimum_mem hm

theorem entityCellGroup_ne_nil {events : List LocationEvent} {k : String × String}
    (hk : k ∈ groupKeys (fun e => (e.entity_id, e.h3_cell)) events) :
    entityCellGroup events k ≠ [] := by
  obtain ⟨e, he, hke⟩ := mem_groupKeys.mp hk
  intro hnil
  have : e ∈ entityCellGroup events k :=
    List.mem_filter.mpr ⟨he, by simp [hke]⟩
  simp [hnil] at this

/-- Both per-(entity, cell) bucket timestamps of a stats record are actual
`time_bucket_ts` values of events, hence multiples of 900 when every
event's bucket timestamp is. -/
theorem entityCellStats_ts_mod {events : List LocationEvent}
    (hq : ∀ e ∈ events, e.time_bucket_ts % 900 = 0) {s : EntityCellStats}
    (hs : s ∈ entityCellStats events) :
    s.last_seen_ts % 900 = 0 ∧ s.first_seen_ts % 900 = 0 := by
  obtain ⟨k, hk, rfl⟩ := mem_entityCellStats.mp hs
  have hne : entityCellGroup events k ≠ [] := entityCellGroup_ne_nil hk
  have hne2 : (entityCellGroup events k).map (fun e => e.time_bucket_ts) ≠ [] := by
    simpa using hne
  constructor
  · have hmem := maximum_unbot'_mem hne2
    obtain ⟨e, he, heq⟩ := List.mem_map.mp hmem
    rw [show (entityCellRow events k).last_seen_ts =
      (((entityCellGroup events k).map fun e => e.time_bucket_ts).maximum).unbot' 0 from rfl,
      ← heq]
    exact hq e (List.mem_filter.mp he).1
  · have hmem := minimum_untop'_mem hne2
    obtain ⟨e, he, heq⟩ := List.mem_map.mp hmem
    rw [show (entityCellRow events k).first_seen_ts =
      (((entityCellGroup events k).map fun e => e.time_bucket_ts).minimum).untop' 0 from rfl,
      ← heq]
    exact hq e (List.mem_filter.mp he).1

/-- C10: when every event's `time_bucket_ts` is a multiple of 900 seconds
(the 15-minute floor quantization), the engine's `time_diff_minutes` —
computed from the bucket timestamps, not the raw event timestamps — is a
positive multiple of 15 for every surviving candidate, i.e. exactly 15 or
30, and `temporal_score` only takes the values 0.3 and 0.2. -/
theorem C10_quantized_gaps (events : List LocationEvent) (cop : List CoPresenceEdge)
    (hq : ∀ e ∈ events, e.time_bucket_ts % 900 = 0) :
    ∀ r ∈ handoff_candidates events cop,
      (r.time_diff_minutes = 15 ∨ r.time_diff_minutes = 30) ∧
      (r.temporal_score = 3 / 10 ∨ r.temporal_score = 1 / 5) := by
  intro r hr
  obtain ⟨h, hh, rfl⟩ := mem_handoff_candidates.mp hr
  obtain ⟨o, ho, n, hn, hcell, hne, hpos, hle, rfl⟩ := mem_handoffPairs.mp hh
  have hdvd : (n.first_seen_ts - o.last_seen_ts) % 900 = 0 := by
    have h1 := (entityCellStats_ts_mod hq ho).1
    have h2 := (entityCellStats_ts_mod hq hn).2
    omega
  obtain ⟨c, hc⟩ : (900 : ℤ) ∣ (n.first_seen_ts - o.last_seen_ts) :=
    Int.dvd_of_emod_eq_zero hdvd
  have htd : timeDiffMinutes o n = 15 * (c : ℚ) := by
    unfold timeDiffMinutes
    rw [hc]
    push_cast
    ring
  rw [htd] at hpos hle
  have hc1 : 0 < c := by
    by_contra hc0
    push_neg at hc0
    have : (15 : ℚ) * (c : ℚ) ≤ 0 := by
      have : (c : ℚ) ≤ 0 := by exact_mod_cast hc0
      nlinarith
    linarith
  have hc2 : c ≤ 2 := by
    by_contra hc3
    push_neg at hc3
    have : (3 : ℚ) ≤ (c : ℚ) := by exact_mod_cast hc3
    nlinarith
  have hcases : c = 1 ∨ c = 2 := by omega
  have htd15 : timeDiffMinutes o n = 15 ∨ timeDiffMinutes o n = 30 := by
    rcases hcases with rfl | rfl
    · left
      rw [htd]
      norm_num
    · right
      rw [htd]
      norm_num
  refine ⟨htd15, ?_⟩
  show temporalScore (mkHandoffPair o n) = 3 / 10 ∨
    temporalScore (mkHandoffPair o n) = 1 / 5
  unfold temporalScore
  have : (mkHandoffPair o n).time_diff_minutes = timeDiffMinutes o n := rfl
  rcases htd15 with h15 | h30
  · rw [this, h15]
    norm_num
  · rw [this, h30]
    norm_num

/-- C10 witness: in `exHandoffEvents` all bucket timestamps are multiples
of 900 s, and the concrete candidate's gap is exactly 15 minutes with
`temporal_score = 0.3`. -/
theorem C10_quantized_gaps_witness :
    ((∀ e ∈ exHandoffEvents, e.time_bucket_ts % 900 = 0) ∧
      exCandidateRow ∈
        handoff_candidates exHandoffEvents (co_presence_edges exHandoffEvents)) ∧
    (exCandidateRow.time_diff_minutes = 15 ∨ exCandidateRow.time_diff_minutes = 30) :=
  ⟨⟨by decide, by rw [exCandidates_eval]; simp [exCandidateRow]⟩,
    (C10_quantized_gaps exHandoffEvents (co_presence_edges exHandoffEvents)
      (by decide) exCandidateRow
      (by rw [exCandidates_eval]; simp [exCandidateRow])).1⟩

/-! Claim C5. -/

/-- C5 counterexample: in `exHandoffEvents` the candidate `(O, N)` has one
distinct common partner (`P`), but `shared_partner_count = 2` because `O`
is linked to `P` by two co-presence edge rows (cells `c1` and `c2`) and the
join counts edge-row pairs, not distinct partners. -/
theorem C5_counterexample :
    ∃ r ∈ handoff_candidates exHandoffEvents (co_presence_edges exHandoffEvents),
      r.old_entity_id = "O" ∧ r.new_entity_id = "N" ∧
      r.shared_partner_count = 2 ∧
      sharedPartnerCountSpec (co_presence_edges exHandoffEvents) "O" "N" = 1 ∧
      r.shared_partner_count ≠
        sharedPartnerCountSpec (co_presence_edges exHandoffEvents)
          r.old_entity_id r.new_entity_id := by
  refine ⟨exCandidateRow, by rw [exCandidates_eval]; simp [exCandidateRow],
    rfl, rfl, rfl, exSpecCount_eval, ?_⟩
  show (2 : Nat) ≠ sharedPartnerCountSpec (co_presence_edges exHandoffEvents) "O" "N"
  rw [exSpecCount_eval]
  decide

/-- The number of co-presence edge rows linking `eid` to the partner `p`
(in either direction of the symmetrised partner table). -/
def partnerMultiplicity (cop : List CoPresenceEdge) (eid p : String) : Nat :=
  ((partnersRows cop).filter fun q => q.1 = eid ∧ q.2.1 = p).length

/-- Regrouping a sum of key-dependent terms over a list by the distinct
key values. -/
theorem sum_map_key {α κ : Type} [DecidableEq κ] (l : List α) (key : α → κ)
    (g : κ → ℕ) :
    (l.map fun a => g (key a)).sum =
      ∑ p ∈ (l.map key).toFinset, (l.countP fun a => key a = p) * g p := by
  induction l with
  | nil => simp
  | cons a l ih =>
    have hsplit : ∀ p ∈ insert (key a) (l.map key).toFinset,
        ((a :: l).countP fun x => key x = p) * g p =
          (l.countP fun x => key x = p) * g p + (if key a = p then g p else 0) := by
      intro p _
      rw [List.countP_cons]
      by_cases h : key a = p
      · simp [h, Nat.add_mul]
      · simp [h]
    simp only [List.map_cons, List.sum_cons, List.toFinset_cons]
    rw [Finset.sum_congr rfl hsplit, Finset.sum_add_distrib, Finset.sum_ite_eq,
      if_pos (Finset.mem_insert_self _ _)]
    by_cases hmem : key a ∈ (l.map key).toFinset
    · rw [Finset.insert_eq_self.mpr hmem, ← ih]
      omega
    · rw [Finset.sum_insert hmem]
      have hzero : (l.countP fun x => key x = key a) = 0 := by
        rw [List.countP_eq_zero]
        intro b hb
        simp only [decide_eq_true_eq]
        intro hkey
        exact hmem (List.mem_toFinset.mpr (List.mem_map.mpr ⟨b, hb, hkey⟩))
      rw [hzero, ← ih]
      omega

theorem countP_filter_partner (cop : List CoPresenceEdge) (eid p : String) :
    (((partnersRows cop).filter fun q => q.1 = eid).countP fun q => q.2.1 = p) =
      partnerMultiplicity cop eid p := by
  rw [List.countP_eq_length_filter, partnerMultiplicity, List.filter_filter]
  congr 1
  apply List.filter_congr
  intro q _
  simp [Bool.and_comm]

theorem partnersOf_toFinset (cop : List CoPresenceEdge) (eid : String) :
    (partnersOf cop eid).toFinset =
      (((partnersRows cop).filter fun q => q.1 = eid).map fun q => q.2.1).toFinset := by
  rw [partnersOf]
  exact List.toFinset.ext fun x => List.mem_dedup

theorem sharedPartnerCount_fiber (cop : List CoPresenceEdge) (oldId newId : String) :
    sharedPartnerCount cop oldId newId =
      ∑ p ∈ (partnersOf cop oldId).toFinset,
        partnerMultiplicity cop oldId p * partnerMultiplicity cop newId p := by
  rw [partnersOf_toFinset]
  rw [show sharedPartnerCount cop oldId newId =
    (((partnersRows cop).filter fun q => q.1 = oldId).map fun q =>
      partnerMultiplicity cop newId q.2.1).sum from rfl]
  rw [sum_map_key ((partnersRows cop).filter fun q => q.1 = oldId)
    (fun q => q.2.1) (fun p => partnerMultiplicity cop newId p)]
  exact Finset.sum_congr rfl fun p _ => by rw [countP_filter_partner]

theorem mem_partnersOf_iff {cop : List CoPresenceEdge} {eid p : String} :
    p ∈ partnersOf cop eid ↔ 0 < partnerMultiplicity cop eid p := by
  rw [partnerMultiplicity, ← List.countP_eq_length_filter, List.countP_pos_iff]
  simp only [partnersOf, List.mem_dedup, List.mem_map, List.mem_filter,
    decide_eq_true_eq]
  constructor
  · rintro ⟨q, ⟨hq, h1⟩, h2⟩
    exact ⟨q, hq, h1, h2⟩
  · rintro ⟨q, hq, h1, h2⟩
    exact ⟨q, ⟨hq, h1⟩, h2⟩

theorem sharedPartnerCountSpec_eq_sum (cop : List CoPresenceEdge)
    (oldId newId : String) :
    sharedPartnerCountSpec cop oldId newId =
      ∑ p ∈ (partnersOf cop oldId).toFinset,
        if p ∈ partnersOf cop newId then 1 else 0 := by
  classical
  have hnd : ((partnersOf cop oldId).filter fun p =>
      p ∈ partnersOf cop newId).Nodup :=
    List.Nodup.filter _ (List.nodup_dedup _)
  rw [sharedPartnerCountSpec, ← List.toFinset_card_of_nodup hnd,
    List.toFinset_filter, Finset.card_filter]
  apply Finset.sum_congr rfl
  intro p _
  by_cases h : p ∈ partnersOf cop newId <;> simp [h, partnersOf]

theorem sharedPartnerCount_spec_rel (cop : List CoPresenceEdge)
    (oldId newId : String) :
    sharedPartnerCountSpec cop oldId newId ≤ sharedPartnerCount cop oldId newId ∧
    (0 < sharedPartnerCount cop oldId newId ↔
      0 < sharedPartnerCountSpec cop oldId newId) := by
  constructor
  · rw [sharedPartnerCount_fiber, sharedPartnerCountSpec_eq_sum]
    apply Finset.sum_le_sum
    intro p hp
    have ho : 0 < partnerMultiplicity cop oldId p :=
      mem_partnersOf_iff.mp (List.mem_toFinset.mp hp)
    by_cases hn : p ∈ partnersOf cop newId
    · rw [if_pos hn]
      have hnn := mem_partnersOf_iff.mp hn
      exact Nat.one_le_iff_ne_zero.mpr (Nat.mul_ne_zero (by omega) (by omega))
    · rw [if_neg hn]
      exact Nat.zero_le _
  · rw [sharedPartnerCount_fiber, sharedPartnerCountSpec_eq_sum]
    constructor
    · intro hpos
      obtain ⟨p, hp, hne⟩ : ∃ p ∈ (partnersOf cop oldId).toFinset,
          partnerMultiplicity cop oldId p * partnerMultiplicity cop newId p ≠ 0 := by
        by_contra hall
        push_neg at hall
        rw [Finset.sum_eq_zero hall] at hpos
        omega
      have hn : p ∈ partnersOf cop newId := by
        refine mem_partnersOf_iff.mpr ?_
        rcases Nat.eq_zero_or_pos (partnerMultiplicity cop newId p) with h0 | h0
        · exact absurd (by rw [h0, Nat.mul_zero]) hne
        · exact h0
      have h1 : (1 : ℕ) ≤ ∑ p ∈ (partnersOf cop oldId).toFinset,
          if p ∈ partnersOf cop newId then 1 else 0 := by
        have hle := Finset.single_le_sum
          (f := fun q => if q ∈ partnersOf cop newId then (1 : ℕ) else 0)
          (fun q _ => by positivity) hp
        have h2 : (if p ∈ partnersOf cop newId then (1 : ℕ) else 0) ≤
            ∑ q ∈ (partnersOf cop oldId).toFinset,
              if q ∈ partnersOf cop newId then (1 : ℕ) else 0 := hle
        rw [if_pos hn] at h2
        exact h2
      omega
    · intro hpos
      obtain ⟨p, hp, hne⟩ : ∃ p ∈ (partnersOf cop oldId).toFinset,
          (if p ∈ partnersOf cop newId then (1 : ℕ) else 0) ≠ 0 := by
        by_contra hall
        push_neg at hall
        rw [Finset.sum_eq_zero hall] at hpos
        omega
      have hn : p ∈ partnersOf cop newId := by
        by_contra hno
        rw [if_neg hno] at hne
        exact hne rfl
      have hprod : 0 < partnerMultiplicity cop oldId p *
          partnerMultiplicity cop newId p :=
        Nat.mul_pos (mem_partnersOf_iff.mp (List.mem_toFinset.mp hp))
          (mem_partnersOf_iff.mp hn)
      exact Nat.lt_of_lt_of_le hprod
        (Finset.single_le_sum
          (f := fun q => partnerMultiplicity cop oldId q * partnerMultiplicity cop newId q)
          (fun q _ => Nat.zero_le _) hp)

/-- C5 (amended): `shared_partner_count` counts, with multiplicity, the
pairs of co-presence edge rows connecting a common partner to old and to
new — for each distinct common partner, the product of the number of edge
rows linking it to old and to new — rather than the cardinality of the
distinct-partner intersection; it is always at least that cardinality and
is positive exactly when the intersection is nonempty. -/
theorem C5_shared_partner_count (events : List LocationEvent)
    (cop : List CoPresenceEdge) :
    ∀ r ∈ handoff_candidates events cop,
      (r.shared_partner_count =
        ∑ p ∈ (partnersOf cop r.old_entity_id).toFinset,
          partnerMultiplicity cop r.old_entity_id p *
            partnerMultiplicity cop r.new_entity_id p) ∧
      sharedPartnerCountSpec cop r.old_entity_id r.new_entity_id ≤
        r.shared_partner_count ∧
      (0 < r.shared_partner_count ↔
        0 < sharedPartnerCountSpec cop r.old_entity_id r.new_entity_id) := by
  intro r hr
  obtain ⟨h, hh, rfl⟩ := mem_handoff_candidates.mp hr
  exact ⟨sharedPartnerCount_fiber cop h.old_entity_id h.new_entity_id,
    (sharedPartnerCount_spec_rel cop h.old_entity_id h.new_entity_id).1,
    (sharedPartnerCount_spec_rel cop h.old_entity_id h.new_entity_id).2⟩

/-- C5 witness: the amended count law applied to the concrete candidate:
spec count 1 ≤ row count 2, and both are positive. -/
theorem C5_shared_partner_count_witness :
    exCandidateRow ∈ handoff_candidates exHandoffEvents (co_presence_edges exHandoffEvents) ∧
      sharedPartnerCountSpec (co_presence_edges exHandoffEvents)
          exCandidateRow.old_entity_id exCandidateRow.new_entity_id ≤
        exCandidateRow.shared_partner_count :=
  ⟨by rw [exCandidates_eval]; simp [exCandidateRow],
    (C5_shared_partner_count exHandoffEvents (co_presence_edges exHandoffEvents)
      exCandidateRow (by rw [exCandidates_eval]; simp [exCandidateRow])).2.1⟩

end CrimeGraph
